import Mathlib

/-!
Shallow embedding of `bin/integrate_anndata.py` (haniffalab/vitessce-pipeline).

The script manipulates AnnData datasets: an observation × feature matrix `X`
(dense numpy array or scipy sparse matrix) together with the `obs`, `var`,
`obsm` and `uns` sidecars.  We model:

  * pandas DataFrames (`obs`, `var`) as an index (list of row labels) plus an
    ordered list of named columns; a cell is a `CellVal`, with `CellVal.na`
    playing the role of `NaN` so that `fillna` is expressible;
  * numeric annotation tables (the output of `pd.get_dummies`, an `obsm`
    entry, or the cell2location abundance table) as `NumDF`:
    an index, column names and a row-major list of rational values
    (matrix entries are only ever moved around, never computed with,
    so exact rationals stand in for float32 without loss);
  * matrices as `Mat`: a representation tag (dense / csr / csc — mirroring
    `isinstance(adata.X, spmatrix)` and the csr/csc cases) plus row-major
    contents.  `scipy.sparse.hstack` on two blocks of the same sparse format
    returns that format, and `np.hstack` returns a dense array, so the
    result tag of the concatenation follows the input tag;
  * fallible Python code (KeyError / IndexError / assert / astype failure) as
    `Except IntegrateErr`.
-/

/-! ### Python string primitives

Modelled over the character list of a Lean `String` (Python strings are
character sequences; none of the inputs exercised here involve the
whitespace/underscore leniency of Python's `int()`). -/

/-- Lexicographic (code-point) comparison of character lists — the order
Python string comparison and pandas label sorting use. -/
def charListLe : List Char → List Char → Bool
  | [], _ => true
  | _ :: _, [] => false
  | a :: as, b :: bs =>
    if a = b then charListLe as bs
    else decide (a.toNat < b.toNat)

/-- Python `s <= t` on strings. -/
def pyStrLe (s t : String) : Bool := charListLe s.toList t.toList

/-- Python `s.startswith(p)`. -/
def pyStartsWith (s p : String) : Bool := p.toList.isPrefixOf s.toList

/-- Python `s.endswith(p)`. -/
def pyEndsWith (s p : String) : Bool := p.toList.isSuffixOf s.toList

/-- Split a character list at a separator character. -/
def splitCharAux (sep : Char) : List Char → List (List Char)
  | [] => [[]]
  | c :: cs =>
    match splitCharAux sep cs with
    | [] => [[]]
    | h :: t => if c = sep then [] :: h :: t else (c :: h) :: t

/-- Python `s.split(sep)` for a one-character separator. -/
def pySplitOn (sep : Char) (s : String) : List String :=
  (splitCharAux sep s.toList).map String.mk

/-- Left-to-right, non-overlapping replacement of `pat` by `rep`
(`k` counts pattern characters still to be skipped after a match). -/
def replaceGo (pat rep : List Char) : List Char → Nat → List Char
  | [], _ => []
  | _ :: cs, k + 1 => replaceGo pat rep cs k
  | c :: cs, 0 =>
    if pat ≠ [] ∧ pat.isPrefixOf (c :: cs)
    then rep ++ replaceGo pat rep cs (pat.length - 1)
    else c :: replaceGo pat rep cs 0

/-- Python `s.replace(pat, rep)` (and pandas `Series.str.replace` with a
literal pattern). -/
def pyReplace (s pat rep : String) : String :=
  String.mk (replaceGo pat.toList rep.toList s.toList 0)

def parseDigitsAux : List Char → Nat → Option Nat
  | [], acc => some acc
  | c :: cs, acc =>
    if c.isDigit then parseDigitsAux cs (acc * 10 + (c.toNat - '0'.toNat)) else none

/-- Parse a non-empty all-digit character list as a natural number. -/
def parseDigits (ds : List Char) : Option Nat :=
  match ds with
  | [] => none
  | _ => parseDigitsAux ds 0

/-- Python `int(s)` on a string: optional sign, then digits
(`none` ~ ValueError). -/
def pyToInt (s : String) : Option Int :=
  match s.toList with
  | '-' :: ds => (parseDigits ds).map (fun n => -(n : Int))
  | '+' :: ds => (parseDigits ds).map (fun n => (n : Int))
  | ds => (parseDigits ds).map (fun n => (n : Int))

/-- A pandas cell: missing (`NaN`), boolean, string or numeric. -/
inductive CellVal where
  | na : CellVal
  | b (v : Bool) : CellVal
  | s (v : String) : CellVal
  | num (v : ℚ) : CellVal
deriving DecidableEq, Repr

/-- `True` exactly for definite boolean cells; a column whose cells all
satisfy this corresponds to a pandas column of dtype `bool`. -/
def CellVal.isBool : CellVal → Bool
  | .b _ => true
  | _ => false

/-- A pandas DataFrame: row labels plus ordered named columns. -/
structure DataFrame where
  index : List String
  cols : List (String × List CellVal)
deriving DecidableEq, Repr

/-- Column access `df[c]` (first column named `c`, `none` ~ KeyError). -/
def DataFrame.lookup (df : DataFrame) (c : String) : Option (List CellVal) :=
  (df.cols.find? (fun p => p.1 == c)).map (fun p => p.2)

/-- `c in df.columns`. -/
def DataFrame.hasCol (df : DataFrame) (c : String) : Bool :=
  df.cols.any (fun p => p.1 == c)

/-- `df.assign(**{c: v})`: replace column `c` in place if present (keeping
its position), otherwise append it; the new column is the scalar `v`
broadcast over all rows. -/
def DataFrame.assign (df : DataFrame) (c : String) (v : CellVal) : DataFrame :=
  ⟨df.index,
    if df.hasCol c then
      df.cols.map (fun p => if p.1 == c then (p.1, List.replicate df.index.length v) else p)
    else
      df.cols ++ [(c, List.replicate df.index.length v)]⟩

/-- `fillna(False)` on one cell. -/
def fillCell (v : CellVal) : CellVal := if v = .na then .b false else v

/-- `df[c] = df[c].fillna(False)`. -/
def DataFrame.fillnaCol (df : DataFrame) (c : String) : DataFrame :=
  ⟨df.index, df.cols.map (fun p => if p.1 == c then (p.1, p.2.map fillCell) else p)⟩

/-- Extend a column of the first concatenand over the rows of the second:
with the second frame's values when it has a column of the same name,
with `NaN` otherwise. -/
def extendColWith (b : DataFrame) (p : String × List CellVal) : String × List CellVal :=
  (p.1, p.2 ++ (match b.lookup p.1 with
                | some w => w
                | none => List.replicate b.index.length CellVal.na))

/-- A column present only in the second concatenand: `NaN` over the `n`
rows of the first frame, then its values. -/
def newColFrom (n : Nat) (p : String × List CellVal) : String × List CellVal :=
  (p.1, List.replicate n CellVal.na ++ p.2)

/-- `pd.concat([a, b])` along the row axis with the default outer join:
the index is the concatenation of the two indexes; columns of `a` come
first (extended with `NaN` where `b` lacks them), then the columns only
`b` has (prefixed with `NaN` for the rows of `a`). -/
def pdConcatRows (a b : DataFrame) : DataFrame :=
  ⟨a.index ++ b.index,
    a.cols.map (extendColWith b) ++
    (b.cols.filter (fun p => !a.hasCol p.1)).map (newColFrom a.index.length)⟩

/-- Keep the entries of `xs` whose mask bit is `true` (boolean-mask row
selection, as in `df[mask]`). -/
def maskFilter {α : Type} (xs : List α) (m : List Bool) : List α :=
  ((xs.zip m).filter (fun p => p.2)).map (fun p => p.1)

/-- A numeric table (one-hot encoding, an `obsm` entry, or the
cell2location abundance table): row labels, column names, row-major values. -/
structure NumDF where
  index : List String
  colNames : List String
  values : List (List ℚ)
deriving DecidableEq, Repr

/-- `df.shape[0]` of a pandas DataFrame is the length of its index. -/
def NumDF.nrows (e : NumDF) : Nat := e.index.length

/-- Boolean-mask row selection on a numeric table. -/
def NumDF.filterRows (e : NumDF) (mask : List Bool) : NumDF :=
  ⟨maskFilter e.index mask, e.colNames, maskFilter e.values mask⟩

/-- Boolean-mask row selection on a DataFrame. -/
def DataFrame.filterRows (df : DataFrame) (mask : List Bool) : DataFrame :=
  ⟨maskFilter df.index mask, df.cols.map (fun p => (p.1, maskFilter p.2 mask))⟩

/-- Matrix representation: dense ndarray, or scipy csr / csc sparse. -/
inductive MatFmt where
  | dense | csr | csc
deriving DecidableEq, Repr

/-- The primary matrix `X`: a representation tag plus row-major contents. -/
structure Mat where
  fmt : MatFmt
  rows : List (List ℚ)
deriving DecidableEq, Repr

/-- Horizontal concatenation of two row-major matrices
(`np.hstack` / `scipy.sparse.hstack`; both require equal row counts,
which `concat_matrices` has asserted before this is reached). -/
def hstackRows (a b : List (List ℚ)) : List (List ℚ) := List.zipWith (· ++ ·) a b

/-- An AnnData object: `X` plus the `obs`, `var`, `obsm`, `uns` sidecars. -/
structure AnnData where
  X : Mat
  obs : DataFrame
  var : DataFrame
  obsm : List (String × NumDF)
  uns : List (String × String)
deriving DecidableEq, Repr

/-- `adata.shape[0]` = `adata.n_obs`: the number of observations (AnnData
keeps `X.shape[0]` and `len(obs)` equal by construction). -/
def AnnData.n_obs (adata : AnnData) : Nat := adata.obs.index.length

/-- `obsm[k]` lookup (`none` ~ KeyError). -/
def obsmLookup (m : List (String × NumDF)) (k : String) : Option NumDF :=
  (m.find? (fun p => p.1 == k)).map (fun p => p.2)

/-- Insert a string into a sorted list of distinct strings, skipping it if
already present. -/
def insertSortedU (x : String) : List String → List String
  | [] => [x]
  | y :: ys =>
    if x = y then y :: ys
    else if pyStrLe x y then x :: y :: ys
    else y :: insertSortedU x ys

/-- The distinct values of a list, in sorted order — the column order
`pd.get_dummies` produces for a non-categorical label column. -/
def sortedUniqueLabels (labels : List String) : List String :=
  labels.foldl (fun acc l => insertSortedU l acc) []

/-- `pd.get_dummies(series, dtype="float32")`: one float 0/1 indicator
column per distinct label, columns in sorted label order, index and row
order preserved from the input series. -/
def get_dummies (idx : List String) (labels : List String) : NumDF :=
  let cats := sortedUniqueLabels labels
  ⟨idx, cats, labels.map (fun l => cats.map (fun c => if l = c then (1 : ℚ) else 0))⟩

/-- Failure modes of the script: the `assert` in `concat_matrices`
(shape mismatch), `astype(int)` failure in `reindex_anndata`
(format error), pandas/dict KeyError, and Python IndexError. -/
inductive IntegrateErr where
  | shapeMismatch
  | formatError
  | keyError
  | indexError
deriving DecidableEq, Repr

/-- How a pandas cell prints as a one-hot category label
(only string cells are exercised by the pipeline). -/
def CellVal.asLabel : CellVal → String
  | .s v => v
  | .b v => cond v "True" "False"
  | .num v => toString v
  | .na => "nan"

/-- A pandas column has dtype `bool` iff every cell is a definite boolean. -/
def isBoolCol (l : List CellVal) : Bool := l.all CellVal.isBool

/-- The body of `concat_matrices` past its `assert` (lines 177–229):
build the new `var` by row-concatenating the original `var` (with
`is_<feature_name> = True` assigned) and the frame of the annotation
table's column names (with `is_<obs_feature_name> = True` assigned
— `ext_df.columns.to_frame(...).drop(columns=0)` is exactly the frame
whose index is the annotation column names and which has no columns);
`fillna(False)` both flag columns and every column that had dtype `bool`
in the original `var`; horizontally stack `X` with the annotation values
(sparse branch when `X` is sparse — scipy keeps the csr/csc format of the
blocks — dense `np.hstack` branch otherwise; both move the same values). -/
def concatVar (var0 : DataFrame) (extCols : List String) (obs : String)
    (feature_name : String) (obs_feature_name : Option String) : DataFrame :=
  let ofn2 := obs_feature_name.getD obs
  let prevB := "is_" ++ feature_name
  let newB := "is_" ++ ofn2
  ((var0.cols.filter (fun p => isBoolCol p.2)).map (fun p => p.1)).foldl
    (fun v c => v.fillnaCol c)
    (((pdConcatRows (var0.assign prevB (CellVal.b true))
        ((DataFrame.mk extCols []).assign newB (CellVal.b true))).fillnaCol
          prevB).fillnaCol newB)

def concat_body (adata : AnnData) (ext_df : NumDF) (obs : String)
    (feature_name : String) (obs_feature_name : Option String) : AnnData :=
  let newVar := concatVar adata.var ext_df.colNames obs feature_name obs_feature_name
  if adata.X.fmt ≠ MatFmt.dense then
    { X := ⟨adata.X.fmt, hstackRows adata.X.rows ext_df.values⟩,
      obs := adata.obs, var := newVar, obsm := adata.obsm, uns := adata.uns }
  else
    { X := ⟨MatFmt.dense, hstackRows adata.X.rows ext_df.values⟩,
      obs := adata.obs, var := newVar, obsm := adata.obsm, uns := adata.uns }

/-- `concat_matrices` (lines 168–229): `assert adata.shape[0] == ext_df.shape[0]`
then the concatenation body. -/
def concat_matrices (adata : AnnData) (ext_df : NumDF) (obs : String := "celltype")
    (feature_name : String := "gene") (obs_feature_name : Option String := none) :
    Except IntegrateErr AnnData :=
  if adata.n_obs = ext_df.nrows then
    .ok (concat_body adata ext_df obs feature_name obs_feature_name)
  else .error .shapeMismatch

/-- `concat_matrix_from_obs` (lines 101–114): one-hot encode an `obs`
column and concatenate. -/
def concat_matrix_from_obs (adata : AnnData) (obs : String := "celltype")
    (feature_name : String := "gene") (obs_feature_name : Option String := none) :
    Except IntegrateErr AnnData :=
  match adata.obs.lookup obs with
  | none => .error .keyError
  | some col =>
    concat_matrices adata (get_dummies adata.obs.index (col.map CellVal.asLabel))
      obs feature_name obs_feature_name

/-- `concat_matrix_from_obsm` (lines 117–130): take `adata.obsm[obsm]` as
the annotation table; note the literal `"celltype"` passed as the `obs`
argument of `concat_matrices`, independent of the `obsm` key. -/
def concat_matrix_from_obsm (adata : AnnData) (obsm : String := "celltype")
    (feature_name : String := "gene") (obsm_feature_name : Option String := none) :
    Except IntegrateErr AnnData :=
  match obsmLookup adata.obsm obsm with
  | none => .error .keyError
  | some df => concat_matrices adata df "celltype" feature_name obsm_feature_name

/-- The `obs`/`obsm` contents of the cell2location companion `.h5ad` file,
as read by `h5py` + `read_elem` in lines 146–151 (the `var` slot is read
but never used afterwards, so it is omitted here). -/
structure C2LFile where
  obs : DataFrame
  obsm : List (String × NumDF)
deriving DecidableEq, Repr

/-- Elementwise pandas comparison of a cell with a string
(`obs[k] == v`; non-string and missing cells compare unequal). -/
def cellEqStr (v : CellVal) (w : String) : Bool :=
  match v with
  | .s x => x == w
  | _ => false

/-- Lines 153–154: `if sample: c2l_adata = c2l_adata[c2l_adata.obs[sample[0]] == sample[1]]`.
`sample` is any Python sequence (`None` ~ `none`); an empty sequence is
falsy so no filtering happens; `sample[0]` selects the obs column to
compare, `sample[1]` the value (IndexError when the sequence is too
short — `sample[0]` and the column access are evaluated before
`sample[1]`).  AnnData row selection restricts `obs` and every `obsm`
entry by the same boolean mask. -/
def c2l_sample_filter (c2l : C2LFile) (sample : Option (List String)) :
    Except IntegrateErr C2LFile :=
  match sample with
  | none => .ok c2l
  | some smp =>
    if smp.isEmpty then .ok c2l
    else
      match c2l.obs.lookup (smp.getD 0 "") with
      | none => .error .keyError
      | some col =>
        if smp.length < 2 then .error .indexError
        else
          let mask := col.map (fun v => cellEqStr v (smp.getD 1 ""))
          .ok ⟨c2l.obs.filterRows mask,
               c2l.obsm.map (fun p => (p.1, p.2.filterRows mask))⟩

/-- `concat_matrix_from_cell2location` (lines 133–165): optionally filter
the companion by the sample predicate, pull `obsm[q]`, strip the
`q.split("_")[0] + "cell_abundance_w_sf_"` pattern from its column names
(`Series.str.replace` with a literal pattern), reindex it by the
companion's obs index, and concatenate. -/
def concat_matrix_from_cell2location (adata : AnnData) (c2l0 : C2LFile)
    (q : String := "q05_cell_abundance_w_sf") (sample : Option (List String) := none)
    (feature_name : String := "gene") (obs_feature_name : Option String := none) :
    Except IntegrateErr AnnData :=
  match c2l_sample_filter c2l0 sample with
  | .error e => .error e
  | .ok c2l =>
    match obsmLookup c2l.obsm q with
    | none => .error .keyError
    | some m =>
      let pfx := ((pySplitOn '_' q).getD 0 "") ++ "cell_abundance_w_sf_"
      let c2l_df : NumDF :=
        ⟨c2l.obs.index, m.colNames.map (fun c => pyReplace c pfx ""), m.values⟩
      concat_matrices adata c2l_df "celltype" feature_name obs_feature_name

/-- The `elif` chain of `concat_features` (lines 72–75) after the
companion-file test has failed: `obs/<col>` and `obsm/<key>` sources, and
the silent fall-through that returns the dataset unmodified. -/
def concat_features_rest (adata : AnnData) (features : String) :
    Except IntegrateErr AnnData :=
  if pyStartsWith features "obs/" then
    concat_matrix_from_obs adata ((pySplitOn '/' features).getD 1 "")
  else if pyStartsWith features "obsm/" then
    concat_matrix_from_obsm adata ((pySplitOn '/' features).getD 1 "")
  else .ok adata

/-- `concat_features` (lines 55–81) on an in-memory AnnData with
`no_save=True`.  `files` models the filesystem visible to
`os.path.isfile`: the cell2location companion content when the path is an
existing file, `none` otherwise.  The first branch fires only when the
address ends in `.h5ad` *and* the file exists (`and` short-circuit). -/
def concat_features (files : String → Option C2LFile) (adata : AnnData)
    (features : String) : Except IntegrateErr AnnData :=
  if pyEndsWith features ".h5ad" then
    match files features with
    | some c2l => concat_matrix_from_cell2location adata c2l
    | none => concat_features_rest adata features
  else concat_features_rest adata features

/-- `reindex_anndata` (lines 31–52) on an in-memory AnnData with
`no_save=True`: `adata.obs.index = (adata.obs.index.astype(int) + offset).astype(str)`.
`pyToInt` models `int(str)` (optional sign then digits); if any
identifier fails to parse, `astype(int)` raises — a format error. -/
def reindex_anndata (adata : AnnData) (offset : Int) : Except IntegrateErr AnnData :=
  match adata.obs.index.mapM pyToInt with
  | none => .error .formatError
  | some ids =>
    .ok { adata with obs := ⟨ids.map (fun i => toString (i + offset)), adata.obs.cols⟩ }

/-- Explicit-state view of calling `reindex_anndata` on an AnnData
argument: line 46 assigns `adata.obs.index` *in place* on the argument
object and line 49 returns that same object, so on success the post-call
state of the argument and the returned value are the same dataset.
Returns `(argument after the call, result)`. -/
def reindex_anndata_call (adata : AnnData) (offset : Int) :
    Except IntegrateErr (AnnData × AnnData) :=
  (reindex_anndata adata offset).map (fun r => (r, r))

/-- `get_feature_intersection` (lines 232–246), abstracted over the var
indexes read from the input files: `pd.concat(var_indices, axis=1, join="inner")`
intersects the indexes, keeping the first input's order (inputs with
unique feature identifiers). -/
def get_feature_intersection (varIndices : List (List String)) : List String :=
  match varIndices with
  | [] => []
  | v :: rest => v.filter (fun f => rest.all (fun w => w.contains f))

/-- The per-dataset step of `intersect_features` (line 90):
`adata = adata[:, var_intersect]` — select the named feature columns, in
the order of `fs`, from `X` and from the `var` table (whose index becomes
`fs`); label selection raises a KeyError when a requested feature is
absent. -/
def apply_intersection (adata : AnnData) (fs : List String) :
    Except IntegrateErr AnnData :=
  if fs.all (fun f => adata.var.index.contains f) then
    .ok { X := ⟨adata.X.fmt,
                adata.X.rows.map (fun r =>
                  fs.map (fun f => r.getD (adata.var.index.indexOf f) 0))⟩,
          obs := adata.obs,
          var := ⟨fs, adata.var.cols.map (fun p =>
                  (p.1, fs.map (fun f => p.2.getD (adata.var.index.indexOf f) CellVal.na)))⟩,
          obsm := adata.obsm, uns := adata.uns }
  else .error .keyError

/-- Python string indexing: `s[i]` is the one-character string at
position `i`, so a plain string passed where a `(key, value)` sequence is
expected is seen as the sequence of its one-character substrings. -/
def pyStrIndex (s : String) : List String := s.toList.map (fun c => String.singleton c)

/-! ### Helper lemmas about the DataFrame operations -/

theorem fillCell_b (x : Bool) : fillCell (CellVal.b x) = CellVal.b x := rfl

theorem fillCell_idem (v : CellVal) : fillCell (fillCell v) = fillCell v := by
  cases v <;> rfl

theorem mapFill_idem (l : List CellVal) :
    (l.map fillCell).map fillCell = l.map fillCell := by
  rw [List.map_map]
  exact List.map_congr_left fun v _ => fillCell_idem v

theorem mapFill_of_isBool (l : List CellVal) (h : isBoolCol l = true) :
    l.map fillCell = l := by
  have hfix : ∀ v ∈ l, fillCell v = v := by
    intro v hv
    have hb := (List.all_eq_true.mp h) v hv
    cases v with
    | b x => rfl
    | na => exact Bool.noConfusion hb
    | s x => exact Bool.noConfusion hb
    | num x => exact Bool.noConfusion hb
  calc l.map fillCell = l.map id := List.map_congr_left hfix
    _ = l := List.map_id l

theorem isBoolCol_mapFill_of_noStr (l : List CellVal)
    (h : ∀ v ∈ l, v = CellVal.na ∨ v.isBool = true) :
    isBoolCol (l.map fillCell) = true := by
  apply List.all_eq_true.mpr
  intro v hv
  obtain ⟨w, hw, rfl⟩ := List.mem_map.mp hv
  rcases h w hw with h1 | h1
  · subst h1; rfl
  · cases w with
    | b x => rfl
    | na => rfl
    | s x => exact Bool.noConfusion h1
    | num x => exact Bool.noConfusion h1

theorem isBoolCol_of_mapFill (l : List CellVal) (h : isBoolCol l = true) :
    isBoolCol (l.map fillCell) = true := by
  rw [mapFill_of_isBool l h]; exact h

/-- `find?` over a map that preserves the name component. -/
theorem find?_mapNamed (cs : List (String × List CellVal))
    (g : String × List CellVal → String × List CellVal)
    (hg : ∀ p, (g p).1 = p.1) (c : String) :
    ((cs.map g).find? (fun p => p.1 == c)) = (cs.find? (fun p => p.1 == c)).map g := by
  rw [List.find?_map]
  have : ((fun p : String × List CellVal => p.1 == c) ∘ g) =
      (fun p : String × List CellVal => p.1 == c) := by
    funext p
    simp [Function.comp, hg]
  rw [this]

theorem lookup_eq_none_iff (df : DataFrame) (c : String) :
    df.lookup c = none ↔ ∀ p ∈ df.cols, p.1 ≠ c := by
  unfold DataFrame.lookup
  rw [Option.map_eq_none', List.find?_eq_none]
  constructor
  · intro h p hp
    have := h p hp
    simpa using this
  · intro h p hp
    simpa using h p hp

theorem hasCol_false_iff (df : DataFrame) (c : String) :
    df.hasCol c = false ↔ ∀ p ∈ df.cols, p.1 ≠ c := by
  unfold DataFrame.hasCol
  rw [← Bool.not_eq_true, List.any_eq_true]
  constructor
  · intro h p hp
    intro hc
    exact h ⟨p, hp, by simp [hc]⟩
  · rintro h ⟨p, hp, hc⟩
    exact h p hp (by simpa using hc)

theorem lookup_none_of_hasCol_false (df : DataFrame) (c : String)
    (h : df.hasCol c = false) : df.lookup c = none :=
  (lookup_eq_none_iff df c).mpr ((hasCol_false_iff df c).mp h)

theorem index_assign (df : DataFrame) (c : String) (v : CellVal) :
    (df.assign c v).index = df.index := rfl

/-- `lookup` through `assign`: column `c` becomes the broadcast scalar,
every other column is untouched. -/
theorem lookup_assign (df : DataFrame) (c c' : String) (v : CellVal) :
    (df.assign c v).lookup c' =
      if c' = c then
        (if df.hasCol c then (df.cols.find? (fun p => p.1 == c)).map
            (fun _ => List.replicate df.index.length v)
         else some (List.replicate df.index.length v))
      else df.lookup c' := by
  unfold DataFrame.assign DataFrame.lookup
  by_cases hhas : df.hasCol c
  · simp only [hhas, if_true]
    rw [find?_mapNamed df.cols _ (fun p => by by_cases h : p.1 == c <;> simp [h]) c']
    by_cases hcc : c' = c
    · subst hcc
      cases hf : df.cols.find? (fun p => p.1 == c') with
      | none => simp
      | some p =>
        have hp := List.find?_some hf
        simp only [Option.map_some', if_pos hp]
        simp
    · cases hf : df.cols.find? (fun p => p.1 == c') with
      | none => simp [hcc]
      | some p =>
        have hp : p.1 = c' := by simpa using List.find?_some hf
        simp [hcc, hp]
  · simp only [hhas, if_false, Bool.false_eq_true]
    rw [List.find?_append]
    by_cases hcc : c' = c
    · subst hcc
      have h1 : df.cols.find? (fun p => p.1 == c') = none := by
        rw [List.find?_eq_none]
        intro p hp
        simpa using (hasCol_false_iff df c').mp (by simpa using hhas) p hp
      simp [h1, List.find?]
    · have h2 : ([(c, List.replicate df.index.length v)].find?
          (fun p => p.1 == c')) = none := by
        rw [List.find?_eq_none]
        intro p hp
        simp only [List.mem_singleton] at hp
        subst hp
        simp only [beq_iff_eq]
        intro h
        exact hcc h.symm
      simp [hcc, h2]

/-- Convenient corollary when `c` is a fresh column name. -/
theorem lookup_assign_of_not_has (df : DataFrame) (c : String) (v : CellVal)
    (h : df.hasCol c = false) :
    (df.assign c v).lookup c = some (List.replicate df.index.length v) := by
  rw [lookup_assign, if_pos rfl, h]
  simp

theorem index_fillnaCol (df : DataFrame) (c : String) :
    (df.fillnaCol c).index = df.index := rfl

theorem lookup_fillnaCol (df : DataFrame) (c c' : String) :
    (df.fillnaCol c).lookup c' =
      (df.lookup c').map (fun l => if c' = c then l.map fillCell else l) := by
  unfold DataFrame.fillnaCol DataFrame.lookup
  rw [find?_mapNamed df.cols _ (fun p => by by_cases h : p.1 == c <;> simp [h]) c']
  cases hf : df.cols.find? (fun p => p.1 == c') with
  | none => simp
  | some p =>
    have hp : p.1 = c' := by simpa using List.find?_some hf
    by_cases hcc : c' = c
    · subst hcc
      simp [hp]
    · simp [hp, hcc]

theorem index_pdConcatRows (a b : DataFrame) :
    (pdConcatRows a b).index = a.index ++ b.index := rfl

theorem find?_filter_of_imp {α : Type} (l : List α) (q p : α → Bool)
    (h : ∀ x, p x = true → q x = true) :
    (l.filter q).find? p = l.find? p := by
  induction l with
  | nil => rfl
  | cons x tl ih =>
    by_cases hp : p x = true
    · rw [List.filter_cons, if_pos (h x hp), List.find?_cons_of_pos _ hp,
          List.find?_cons_of_pos _ hp]
    · by_cases hq : q x = true
      · rw [List.filter_cons, if_pos hq, List.find?_cons_of_neg _ hp,
            List.find?_cons_of_neg _ hp, ih]
      · rw [List.filter_cons, if_neg hq, List.find?_cons_of_neg _ hp, ih]

theorem lookup_cols (df : DataFrame) (c : String) :
    df.lookup c = (df.cols.find? (fun p => p.1 == c)).map (fun p => p.2) := rfl

theorem cols_pdConcatRows (a b : DataFrame) :
    (pdConcatRows a b).cols =
      a.cols.map (extendColWith b) ++
      (b.cols.filter (fun p => !a.hasCol p.1)).map (newColFrom a.index.length) := rfl

/-- `lookup` through the row-axis `pd.concat`. -/
theorem lookup_pdConcatRows (a b : DataFrame) (c : String) :
    (pdConcatRows a b).lookup c =
      match a.lookup c with
      | some la =>
          some (la ++ ((b.lookup c).getD (List.replicate b.index.length CellVal.na)))
      | none =>
          (b.lookup c).map (fun lb => List.replicate a.index.length CellVal.na ++ lb) := by
  rw [lookup_cols, cols_pdConcatRows, List.find?_append]
  rw [find?_mapNamed a.cols (extendColWith b) (fun p => rfl) c]
  cases hf : a.cols.find? (fun p => p.1 == c) with
  | some p =>
    have hp : p.1 = c := by simpa using List.find?_some hf
    rw [lookup_cols a, hf]
    simp only [Option.map_some', Option.or]
    cases hb : b.lookup c with
    | some w => simp [extendColWith, hp, hb]
    | none => simp [extendColWith, hp, hb]
  | none =>
    rw [lookup_cols a, hf]
    simp only [Option.map_none', Option.none_or]
    have hnota : a.hasCol c = false := by
      rw [hasCol_false_iff]
      intro p hp hc
      have := List.find?_eq_none.mp hf p hp
      simp [hc] at this
    rw [find?_mapNamed _ (newColFrom a.index.length) (fun p => rfl) c]
    rw [find?_filter_of_imp _ _ _ (fun p hpc => ?_)]
    · rw [lookup_cols b]
      cases hfb : b.cols.find? (fun q => q.1 == c) with
      | none => simp
      | some pb => simp [newColFrom]
    · have hp : p.1 = c := by simpa using hpc
      rw [hp, hnota]
      rfl

theorem index_foldl_fillna (cs : List String) (df : DataFrame) :
    (cs.foldl (fun v n => v.fillnaCol n) df).index = df.index := by
  induction cs generalizing df with
  | nil => rfl
  | cons n rest ih => rw [List.foldl_cons, ih, index_fillnaCol]

/-- `lookup` through a chain of `fillna(False)` column updates. -/
theorem lookup_foldl_fillna (cs : List String) (df : DataFrame) (c : String) :
    (cs.foldl (fun v n => v.fillnaCol n) df).lookup c =
      (df.lookup c).map (fun l => if c ∈ cs then l.map fillCell else l) := by
  induction cs generalizing df with
  | nil =>
    simp
  | cons n rest ih =>
    rw [List.foldl_cons, ih, lookup_fillnaCol]
    cases hl : df.lookup c with
    | none => simp
    | some l =>
      simp only [Option.map_some', Option.some_inj]
      by_cases h1 : c = n
      · subst h1
        by_cases h2 : c ∈ rest
        · simp only [if_pos h2, if_pos rfl, List.mem_cons, true_or, if_true]
          exact mapFill_idem l
        · simp [h2]
      · by_cases h2 : c ∈ rest
        · simp [h1, h2, List.mem_cons]
        · have hni : c ∉ n :: rest := by
            simp [h1, h2]
          simp [h1, h2, hni]

theorem lookup_assign_self (df : DataFrame) (c : String) (v : CellVal) :
    (df.assign c v).lookup c = some (List.replicate df.index.length v) := by
  rw [lookup_assign, if_pos rfl]
  by_cases h : df.hasCol c
  · simp only [h, if_true]
    unfold DataFrame.hasCol at h
    obtain ⟨p, hp, hpc⟩ := List.any_eq_true.mp h
    cases hf : df.cols.find? (fun q => q.1 == c) with
    | some q => simp
    | none => exact absurd hpc (List.find?_eq_none.mp hf p hp)
  · simp [h]

theorem lookup_assign_ne (df : DataFrame) (c c' : String) (v : CellVal)
    (h : c' ≠ c) : (df.assign c v).lookup c' = df.lookup c' := by
  rw [lookup_assign, if_neg h]

/-- The frame built from the annotation column names:
`ext_df.columns.to_frame(...).drop(columns=0).assign(**{newB: True})`. -/
theorem extFrame_eq (extCols : List String) (newB : String) :
    (DataFrame.mk extCols []).assign newB (CellVal.b true) =
      ⟨extCols, [(newB, List.replicate extCols.length (CellVal.b true))]⟩ := rfl

theorem lookup_extFrame (extCols : List String) (newB c : String) :
    ((DataFrame.mk extCols []).assign newB (CellVal.b true)).lookup c =
      if c = newB then some (List.replicate extCols.length (CellVal.b true))
      else none := by
  rw [extFrame_eq]
  unfold DataFrame.lookup
  by_cases h : newB = c
  · subst h
    simp [List.find?]
  · have hne : c ≠ newB := fun hc => h hc.symm
    have hbeq : (newB == c) = false := by simp [h]
    simp [List.find?, hne, hbeq]

theorem concatVar_index (var0 : DataFrame) (extCols : List String) (obs fn : String)
    (ofn : Option String) :
    (concatVar var0 extCols obs fn ofn).index = var0.index ++ extCols := by
  unfold concatVar
  rw [index_foldl_fillna, index_fillnaCol, index_fillnaCol, index_pdConcatRows,
    index_assign]
  rfl

/-- `lookup` through the whole `var`-building pipeline of `concat_matrices`:
the row concatenation followed by the three `fillna(False)` passes. -/
theorem lookup_concatVar (var0 : DataFrame) (extCols : List String) (obs fn : String)
    (ofn : Option String) (c : String) :
    (concatVar var0 extCols obs fn ofn).lookup c =
      ((pdConcatRows (var0.assign ("is_" ++ fn) (CellVal.b true))
          ((DataFrame.mk extCols []).assign ("is_" ++ ofn.getD obs) (CellVal.b true))).lookup
            c).map
        (fun l =>
          let l1 := if c = "is_" ++ fn then l.map fillCell else l
          let l2 := if c = "is_" ++ ofn.getD obs then l1.map fillCell else l1
          if c ∈ (var0.cols.filter (fun p => isBoolCol p.2)).map (fun p => p.1)
          then l2.map fillCell else l2) := by
  unfold concatVar
  rw [lookup_foldl_fillna, lookup_fillnaCol, lookup_fillnaCol]
  cases (pdConcatRows (var0.assign ("is_" ++ fn) (CellVal.b true))
      ((DataFrame.mk extCols []).assign ("is_" ++ ofn.getD obs) (CellVal.b true))).lookup c <;>
    simp

/-- Both branches of `concat_body` build the same record (the sparse branch
keeps the csr/csc tag of `X`, the dense branch is reached only when the tag
is dense). -/
theorem concat_body_eq (adata : AnnData) (ext_df : NumDF) (obs fn : String)
    (ofn : Option String) :
    concat_body adata ext_df obs fn ofn =
      { X := ⟨adata.X.fmt, hstackRows adata.X.rows ext_df.values⟩,
        obs := adata.obs,
        var := concatVar adata.var ext_df.colNames obs fn ofn,
        obsm := adata.obsm, uns := adata.uns } := by
  by_cases h : adata.X.fmt = MatFmt.dense <;> simp [concat_body, h]

theorem concat_matrices_ok (adata : AnnData) (ext_df : NumDF) (obs fn : String)
    (ofn : Option String) (h : adata.n_obs = ext_df.nrows) :
    concat_matrices adata ext_df obs fn ofn =
      .ok (concat_body adata ext_df obs fn ofn) := by
  unfold concat_matrices
  rw [if_pos h]

theorem hstackRows_shape (na nb : Nat) :
    ∀ (a b : List (List ℚ)), (∀ r ∈ a, r.length = na) → (∀ r ∈ b, r.length = nb) →
      ∀ r ∈ hstackRows a b, r.length = na + nb := by
  intro a
  induction a with
  | nil =>
    intro b _ _ r hr
    exact absurd hr (by simp [hstackRows])
  | cons x xs ih =>
    intro b ha hb r hr
    cases b with
    | nil => exact absurd hr (by simp [hstackRows])
    | cons y ys =>
      simp only [hstackRows, List.zipWith_cons_cons] at hr
      rcases List.mem_cons.mp hr with h1 | h1
      · subst h1
        rw [List.length_append, ha x (by simp), hb y (by simp)]
      · exact ih ys (fun r hr => ha r (List.mem_cons_of_mem _ hr))
          (fun r hr => hb r (List.mem_cons_of_mem _ hr)) r h1

theorem hstackRows_length (a b : List (List ℚ)) (h : a.length = b.length) :
    (hstackRows a b).length = a.length := by
  unfold hstackRows
  rw [List.length_zipWith, h, Nat.min_self]

/-! ### The claims -/

/-- The `spec.md` §8 scenario dataset: 3 observations, 2 features, dense
matrix `[[1,2],[3,4],[5,6]]`, obs column `celltype = [A,B,A]`. -/
def adC1 : AnnData :=
  { X := ⟨MatFmt.dense, [[1, 2], [3, 4], [5, 6]]⟩,
    obs := ⟨["0", "1", "2"], [("celltype", [.s "A", .s "B", .s "A"])]⟩,
    var := ⟨["g1", "g2"], []⟩,
    obsm := [],
    uns := [] }

/-- C1: on the scenario dataset, `concat_features` from `obs/celltype`
yields the dense 3×4 matrix `[[1,2,1,0],[3,4,0,1],[5,6,1,0]]` (original
feature columns first, then one 0/1 indicator column per distinct label,
in deterministic sorted label order `A`, `B`), and the new `var` table has
`is_gene = [true,true,false,false]` and
`is_celltype = [false,false,true,true]`. -/
theorem claim_C1 :
    concat_features (fun _ => none) adC1 "obs/celltype" =
      .ok { X := ⟨MatFmt.dense, [[1, 2, 1, 0], [3, 4, 0, 1], [5, 6, 1, 0]]⟩,
            obs := ⟨["0", "1", "2"], [("celltype", [.s "A", .s "B", .s "A"])]⟩,
            var := ⟨["g1", "g2", "A", "B"],
                    [("is_gene", [.b true, .b true, .b false, .b false]),
                     ("is_celltype", [.b false, .b false, .b true, .b true])]⟩,
            obsm := [], uns := [] } := rfl

/-- C4: when the annotation address neither names an existing `.h5ad`
companion file, nor starts with `obs/`, nor starts with `obsm/`,
`concat_features` silently returns the dataset unmodified (permissive
no-op, no error). -/
theorem claim_C4 (files : String → Option C2LFile) (adata : AnnData) (features : String)
    (h1 : ¬(pyEndsWith features ".h5ad" = true ∧ (files features).isSome = true))
    (h2 : pyStartsWith features "obs/" = false)
    (h3 : pyStartsWith features "obsm/" = false) :
    concat_features files adata features = .ok adata := by
  have hrest : concat_features_rest adata features = .ok adata := by
    unfold concat_features_rest
    simp [h2, h3]
  unfold concat_features
  by_cases he : pyEndsWith features ".h5ad" = true
  · cases hf : files features with
    | some c => exact absurd ⟨he, by rw [hf]; rfl⟩ h1
    | none =>
      rw [if_pos he]
      exact hrest
  · rw [if_neg he]
    exact hrest

/-- Witness for C4 at a concrete unrecognized address. -/
theorem claim_C4_witness :
    concat_features (fun _ => none) adC1 "unrecognized" = .ok adC1 :=
  claim_C4 (fun _ => none) adC1 "unrecognized" (by decide) (by decide) (by decide)

/-- C5: `concat_matrices` fails with the shape-mismatch error exactly when
the annotation table's row count differs from the dataset's observation
count; with equal row counts the error branch is unreachable and a result
is produced. -/
theorem claim_C5 (adata : AnnData) (ext_df : NumDF) (obs fn : String)
    (ofn : Option String) :
    (adata.n_obs ≠ ext_df.nrows →
       concat_matrices adata ext_df obs fn ofn = .error .shapeMismatch) ∧
    (adata.n_obs = ext_df.nrows →
       ∃ r, concat_matrices adata ext_df obs fn ofn = .ok r) := by
  constructor
  · intro h
    unfold concat_matrices
    rw [if_neg h]
  · intro h
    exact ⟨_, concat_matrices_ok adata ext_df obs fn ofn h⟩

/-- Witness for C5: a 2-row annotation table against the 3-observation
scenario dataset is rejected. -/
theorem claim_C5_witness :
    concat_matrices adC1 ⟨["0", "1"], ["A"], [[1], [2]]⟩ "celltype" "gene" none =
      .error .shapeMismatch :=
  (claim_C5 adC1 ⟨["0", "1"], ["A"], [[1], [2]]⟩ "celltype" "gene" none).1 (by decide)

/-- C6: when every observation identifier parses as an integer, `reindex`
shifts each identifier by the offset (`str(int(id) + offset)`), preserving
row order and leaving `X`, `var`, `obsm`, `uns` and the other `obs`
columns unchanged; when some identifier is not integer-like it fails with
the format error. -/
theorem claim_C6 (adata : AnnData) (k : Int) :
    (∀ ids : List Int, adata.obs.index.mapM pyToInt = some ids →
       reindex_anndata adata k =
         .ok { X := adata.X,
               obs := ⟨ids.map (fun i => toString (i + k)), adata.obs.cols⟩,
               var := adata.var, obsm := adata.obsm, uns := adata.uns }) ∧
    (adata.obs.index.mapM pyToInt = none →
       reindex_anndata adata k = .error .formatError) := by
  constructor
  · intro ids h
    unfold reindex_anndata
    rw [h]
  · intro h
    unfold reindex_anndata
    rw [h]

/-- Witness for C6: offset 1000 on obs index `["0","1","2"]` yields
`["1000","1001","1002"]`. -/
theorem claim_C6_witness :
    reindex_anndata adC1 1000 =
      .ok { X := adC1.X,
            obs := ⟨["1000", "1001", "1002"], adC1.obs.cols⟩,
            var := adC1.var, obsm := adC1.obsm, uns := adC1.uns } := by
  have h := (claim_C6 adC1 1000).1 [0, 1, 2] (by decide)
  rw [h]
  rfl

/-- A one-observation dataset used to exhibit the in-place mutation of
`reindex_anndata`. -/
def adC8 : AnnData :=
  { X := ⟨MatFmt.dense, [[1]]⟩, obs := ⟨["0"], []⟩, var := ⟨["g"], []⟩,
    obsm := [], uns := [] }

/-- Counterexample to C8 as stated: after `reindex_anndata` is called on
an AnnData argument, the argument's obs index has changed (line 46
assigns `adata.obs.index` in place), so the argument is **not** left with
the same fields as before the call. -/
theorem claim_C8_cex :
    (reindex_anndata_call adC8 1).map (fun pr => pr.1.obs.index) = .ok ["1"] ∧
    adC8.obs.index = ["0"] ∧ ("1" : String) ≠ "0" :=
  ⟨rfl, rfl, by decide⟩

/-- C8 amended: `concat_matrices`-based concatenation does return a fresh
dataset sharing `obs`, `obsm`, `uns` by reference with its argument, but
`reindex` mutates its argument in place: on success the post-call
argument state and the returned dataset are the same object, whose obs
index holds the shifted identifiers. -/
theorem claim_C8_amended (adata : AnnData) (k : Int) (ids : List Int)
    (h : adata.obs.index.mapM pyToInt = some ids)
    (ext_df : NumDF) (obs fn : String) (ofn : Option String) (r : AnnData)
    (hc : concat_matrices adata ext_df obs fn ofn = .ok r) :
    (∃ a2, reindex_anndata_call adata k = .ok (a2, a2) ∧
       a2.obs.index = ids.map (fun i => toString (i + k))) ∧
    r.obs = adata.obs ∧ r.obsm = adata.obsm ∧ r.uns = adata.uns := by
  constructor
  · refine ⟨{ adata with
        obs := ⟨ids.map (fun i => toString (i + k)), adata.obs.cols⟩ }, ?_, rfl⟩
    unfold reindex_anndata_call reindex_anndata
    rw [h]
    rfl
  · have hg : adata.n_obs = ext_df.nrows := by
      by_contra hne
      unfold concat_matrices at hc
      rw [if_neg hne] at hc
      exact Except.noConfusion hc
    rw [concat_matrices_ok _ _ _ _ _ hg] at hc
    injection hc with hc'
    subst hc'
    rw [concat_body_eq]
    exact ⟨rfl, rfl, rfl⟩

/-- Witness for the amended C8 at concrete inputs. -/
theorem claim_C8_amended_witness :
    (∃ a2, reindex_anndata_call adC8 1 = .ok (a2, a2) ∧
       a2.obs.index = ([0] : List Int).map (fun i => toString (i + 1))) ∧
    (concat_body adC8 ⟨["0"], ["A"], [[1]]⟩ "celltype" "gene" none).obs = adC8.obs ∧
    (concat_body adC8 ⟨["0"], ["A"], [[1]]⟩ "celltype" "gene" none).obsm = adC8.obsm ∧
    (concat_body adC8 ⟨["0"], ["A"], [[1]]⟩ "celltype" "gene" none).uns = adC8.uns :=
  claim_C8_amended adC8 1 [0] (by decide) ⟨["0"], ["A"], [[1]]⟩ "celltype" "gene" none
    (concat_body adC8 ⟨["0"], ["A"], [[1]]⟩ "celltype" "gene" none) rfl

theorem lookup_length_of_wf (df : DataFrame) (c : String) (l : List CellVal)
    (hwf : ∀ p ∈ df.cols, p.2.length = df.index.length)
    (h : df.lookup c = some l) : l.length = df.index.length := by
  unfold DataFrame.lookup at h
  cases hf : df.cols.find? (fun p => p.1 == c) with
  | none => rw [hf] at h; simp at h
  | some p =>
    rw [hf] at h
    simp only [Option.map_some', Option.some_inj] at h
    rw [← h]
    exact hwf p (List.mem_of_find?_eq_some hf)

theorem not_mem_boolNames_of_lookup_none (df : DataFrame) (c : String)
    (h : df.lookup c = none) :
    c ∉ (df.cols.filter (fun p => isBoolCol p.2)).map (fun p => p.1) := by
  intro hmem
  obtain ⟨p, hp, hpc⟩ := List.mem_map.mp hmem
  exact (lookup_eq_none_iff df c).mp h p (List.mem_filter.mp hp).1 hpc

/-- C7: for a row-aligned annotation table, the concatenated matrix has
the original row count and `original_cols + annotation_cols` columns, in
the sparse branch and in the dense branch alike (the statement quantifies
over the representation tag of `X`). -/
theorem claim_C7 (adata : AnnData) (ext_df : NumDF) (obs fn : String)
    (ofn : Option String) (nc : Nat)
    (hX : ∀ r ∈ adata.X.rows, r.length = nc)
    (hXn : adata.X.rows.length = adata.obs.index.length)
    (hE : ∀ r ∈ ext_df.values, r.length = ext_df.colNames.length)
    (hEn : ext_df.values.length = ext_df.index.length)
    (hrows : adata.n_obs = ext_df.nrows) :
    ∃ r, concat_matrices adata ext_df obs fn ofn = .ok r ∧
      r.X.rows.length = adata.X.rows.length ∧
      ∀ row ∈ r.X.rows, row.length = nc + ext_df.colNames.length := by
  refine ⟨_, concat_matrices_ok adata ext_df obs fn ofn hrows, ?_, ?_⟩
  · rw [concat_body_eq]
    exact hstackRows_length adata.X.rows ext_df.values
      (hXn.trans (hrows.trans hEn.symm))
  · rw [concat_body_eq]
    exact hstackRows_shape nc ext_df.colNames.length adata.X.rows ext_df.values hX hE

/-- Witness for C7 at a concrete 3×2 dataset and 3×1 annotation table. -/
theorem claim_C7_witness :
    ∃ r, concat_matrices adC1 ⟨["0", "1", "2"], ["A"], [[7], [8], [9]]⟩
        "celltype" "gene" none = .ok r ∧
      r.X.rows.length = adC1.X.rows.length ∧
      ∀ row ∈ r.X.rows, row.length = 2 + 1 :=
  claim_C7 adC1 ⟨["0", "1", "2"], ["A"], [[7], [8], [9]]⟩ "celltype" "gene" none 2
    (by decide) (by decide) (by decide) (by decide) (by decide)

/-- C3: the feature intersection is a pure function of the input feature
indexes (running it twice gives the same ordered output), and applying it
to any of the input datasets succeeds and yields a matrix whose column
count is the intersection length and whose feature-identifier sequence is
exactly the intersection — identical across all the inputs. -/
theorem claim_C3 (ds : List AnnData) (d : AnnData) (hd : d ∈ ds) :
    get_feature_intersection (ds.map fun a => a.var.index) =
      get_feature_intersection (ds.map fun a => a.var.index) ∧
    ∃ r, apply_intersection d
        (get_feature_intersection (ds.map fun a => a.var.index)) = .ok r ∧
      r.var.index = get_feature_intersection (ds.map fun a => a.var.index) ∧
      ∀ row ∈ r.X.rows,
        row.length = (get_feature_intersection (ds.map fun a => a.var.index)).length := by
  refine ⟨rfl, ?_⟩
  have hsub : ∀ f ∈ get_feature_intersection (ds.map fun a => a.var.index),
      d.var.index.contains f = true := by
    intro f hf
    cases ds with
    | nil => cases hd
    | cons e rest =>
      simp only [List.map_cons, get_feature_intersection] at hf
      have hmem := List.mem_filter.mp hf
      rcases List.mem_cons.mp hd with rfl | hdr
      · exact List.elem_iff.mpr hmem.1
      · have hall := List.all_eq_true.mp hmem.2
        exact hall d.var.index (List.mem_map_of_mem _ hdr)
  have hguard : (get_feature_intersection (ds.map fun a => a.var.index)).all
      (fun f => d.var.index.contains f) = true :=
    List.all_eq_true.mpr hsub
  have happ : apply_intersection d
      (get_feature_intersection (ds.map fun a => a.var.index)) = .ok
      { X := ⟨d.X.fmt, d.X.rows.map (fun r =>
          (get_feature_intersection (ds.map fun a => a.var.index)).map
            (fun f => r.getD (d.var.index.indexOf f) 0))⟩,
        obs := d.obs,
        var := ⟨get_feature_intersection (ds.map fun a => a.var.index),
                d.var.cols.map (fun p => (p.1,
                  (get_feature_intersection (ds.map fun a => a.var.index)).map
                    (fun f => p.2.getD (d.var.index.indexOf f) CellVal.na)))⟩,
        obsm := d.obsm, uns := d.uns } := by
    unfold apply_intersection
    rw [if_pos hguard]
  refine ⟨_, happ, rfl, ?_⟩
  intro row hrow
  simp only at hrow
  obtain ⟨r0, _, hr0⟩ := List.mem_map.mp hrow
  rw [← hr0, List.length_map]

/-- The §8 intersection scenario: features `{g1,g2,g3}` and `{g2,g3,g4}`. -/
def adg123 : AnnData :=
  ⟨⟨MatFmt.csr, [[1, 2, 3]]⟩, ⟨["0"], []⟩, ⟨["g1", "g2", "g3"], []⟩, [], []⟩

def adg234 : AnnData :=
  ⟨⟨MatFmt.dense, [[4, 5, 6]]⟩, ⟨["0"], []⟩, ⟨["g2", "g3", "g4"], []⟩, [], []⟩

/-- Witness for C3 on the §8 scenario pair of datasets. -/
theorem claim_C3_witness :
    get_feature_intersection ([adg123, adg234].map fun a => a.var.index) =
      get_feature_intersection ([adg123, adg234].map fun a => a.var.index) ∧
    ∃ r, apply_intersection adg123
        (get_feature_intersection ([adg123, adg234].map fun a => a.var.index)) = .ok r ∧
      r.var.index = get_feature_intersection ([adg123, adg234].map fun a => a.var.index) ∧
      ∀ row ∈ r.X.rows,
        row.length =
          (get_feature_intersection ([adg123, adg234].map fun a => a.var.index)).length :=
  claim_C3 [adg123, adg234] adg123 (by decide)

/-- C10: concatenating from a stored `obsm` annotation with the
new-feature flag name unspecified always flags the appended features in
the boolean `var` column named `is_celltype`, whatever the `obsm` key is
(the fallback comes from the literal `"celltype"` argument at line 129,
not from the key). -/
theorem claim_C10 (adata : AnnData) (key : String) (df : NumDF)
    (hk : obsmLookup adata.obsm key = some df)
    (hwf : ∀ p ∈ adata.var.cols, p.2.length = adata.var.index.length)
    (hrows : adata.n_obs = df.nrows) :
    ∃ r, concat_matrix_from_obsm adata key "gene" none = .ok r ∧
      ∃ l, r.var.lookup "is_celltype" = some l ∧
        l.length = adata.var.index.length + df.colNames.length ∧
        l.drop adata.var.index.length =
          List.replicate df.colNames.length (CellVal.b true) := by
  unfold concat_matrix_from_obsm
  rw [hk]
  refine ⟨_, concat_matrices_ok adata df "celltype" "gene" none hrows, ?_⟩
  have hvar : (concat_body adata df "celltype" "gene" none).var
      = concatVar adata.var df.colNames "celltype" "gene" none := by
    rw [concat_body_eq]
  rw [hvar, lookup_concatVar, lookup_pdConcatRows,
    lookup_assign_ne _ _ _ _ (by decide : ("is_celltype" : String) ≠ "is_" ++ "gene"),
    lookup_extFrame]
  rw [if_pos (by decide :
    ("is_celltype" : String) = "is_" ++ (Option.getD none "celltype"))]
  cases hv : adata.var.lookup "is_celltype" with
  | some la =>
    simp only [Option.getD_some, Option.map_some']
    have hne1 : ¬(("is_celltype" : String) = "is_" ++ "gene") := by decide
    have heq2 : ("is_celltype" : String) = "is_" ++ (Option.getD none "celltype") := by
      decide
    rw [if_neg hne1, if_pos heq2]
    have hla : la.length = adata.var.index.length :=
      lookup_length_of_wf adata.var "is_celltype" la hwf hv
    have hfinal :
        ∀ l0, l0 = (la ++ List.replicate df.colNames.length (CellVal.b true)).map fillCell →
        l0.length = adata.var.index.length + df.colNames.length ∧
        l0.drop adata.var.index.length =
          List.replicate df.colNames.length (CellVal.b true) := by
      intro l0 hl0
      subst hl0
      constructor
      · rw [List.length_map, List.length_append, hla, List.length_replicate]
      · rw [List.map_append]
        have hlenm : (la.map fillCell).length = adata.var.index.length := by
          rw [List.length_map, hla]
        rw [← hlenm, List.drop_left]
        rw [List.map_replicate]
        rfl
    by_cases hb : ("is_celltype" : String) ∈
        (adata.var.cols.filter (fun p => isBoolCol p.2)).map (fun p => p.1)
    · rw [if_pos hb]
      exact ⟨_, rfl, hfinal _ (mapFill_idem _)⟩
    · rw [if_neg hb]
      exact ⟨_, rfl, hfinal _ rfl⟩
  | none =>
    simp only [Option.map_some']
    have hne1 : ¬(("is_celltype" : String) = "is_" ++ "gene") := by decide
    have heq2 : ("is_celltype" : String) = "is_" ++ (Option.getD none "celltype") := by
      decide
    rw [if_neg hne1, if_pos heq2]
    rw [if_neg (not_mem_boolNames_of_lookup_none adata.var "is_celltype" hv)]
    refine ⟨_, rfl, ?_, ?_⟩
    · rw [List.length_map, List.length_append, List.length_replicate,
        List.length_replicate, index_assign]
    · rw [List.map_append, List.map_replicate, List.map_replicate]
      have h1 : (List.replicate (adata.var.assign ("is_" ++ "gene")
          (CellVal.b true)).index.length (fillCell CellVal.na)).length
          = adata.var.index.length := by
        rw [List.length_replicate, index_assign]
      rw [← h1, List.drop_left]
      rfl

theorem drop_mapFill_append (l' : List CellVal) (n k : Nat) (x : CellVal)
    (hl : l'.length = n) :
    ((l' ++ List.replicate k x).map fillCell).drop n =
      List.replicate k (fillCell x) := by
  rw [List.map_append, List.map_replicate]
  have h1 : (l'.map fillCell).length = n := by rw [List.length_map, hl]
  rw [← h1, List.drop_left]

theorem isBool_fill_append (n k : Nat) (x y : CellVal)
    (hx : x = CellVal.na ∨ x.isBool = true) (hy : y = CellVal.na ∨ y.isBool = true) :
    isBoolCol ((List.replicate n x ++ List.replicate k y).map fillCell) = true := by
  apply isBoolCol_mapFill_of_noStr
  intro v hv
  rcases List.mem_append.mp hv with h | h
  · rw [List.eq_of_mem_replicate h]; exact hx
  · rw [List.eq_of_mem_replicate h]; exact hy

theorem flagCol_single (n k : Nat) (x y : CellVal)
    (hx : x = CellVal.na ∨ x.isBool = true) (hy : y = CellVal.na ∨ y.isBool = true) :
    ((List.replicate n x ++ List.replicate k y).map fillCell).length = n + k ∧
    ((List.replicate n x ++ List.replicate k y).map fillCell).all CellVal.isBool
      = true := by
  constructor
  · rw [List.length_map, List.length_append, List.length_replicate,
      List.length_replicate]
  · exact isBool_fill_append n k x y hx hy

/-- The C2 counterexample dataset: the original `var` already carries a
boolean column named `is_celltype`. -/
def adC2 : AnnData :=
  { X := ⟨MatFmt.dense, [[5]]⟩,
    obs := ⟨["0"], [("celltype", [.s "A"])]⟩,
    var := ⟨["g1"], [("is_celltype", [.b false])]⟩,
    obsm := [], uns := [] }

/-- Counterexample to C2 as stated: `is_celltype` is a boolean column of
the original `var` table, yet after `concat_features` from `obs/celltype`
its value in the newly appended row is `true`, not `false` (the appended
side's provenance flag wins over the refill). -/
theorem claim_C2_cex :
    isBoolCol [CellVal.b false] = true ∧
    (concat_features (fun _ => none) adC2 "obs/celltype").map
      (fun r => r.var.lookup "is_celltype") =
      .ok (some [CellVal.b false, CellVal.b true]) ∧
    CellVal.b true ≠ CellVal.b false :=
  ⟨rfl, rfl, by decide⟩

/-- C2 amended: provided the original `var` table has no column named
`is_<annotation_feature_name>`, after a successful concatenation both
provenance flag columns are total columns of definite `true`/`false`
values (no missing values), and every boolean column that existed in the
original `var` table holds `false` in every newly appended row. -/
theorem claim_C2_amended (adata : AnnData) (ext_df : NumDF) (obs fn : String)
    (ofn : Option String) (r : AnnData)
    (hwf : ∀ p ∈ adata.var.cols, p.2.length = adata.var.index.length)
    (hnew : adata.var.lookup ("is_" ++ ofn.getD obs) = none)
    (hok : concat_matrices adata ext_df obs fn ofn = .ok r) :
    (∃ lp, r.var.lookup ("is_" ++ fn) = some lp ∧
       lp.length = adata.var.index.length + ext_df.colNames.length ∧
       lp.all CellVal.isBool = true) ∧
    (∃ ln, r.var.lookup ("is_" ++ ofn.getD obs) = some ln ∧
       ln.length = adata.var.index.length + ext_df.colNames.length ∧
       ln.all CellVal.isBool = true) ∧
    (∀ p ∈ adata.var.cols, isBoolCol p.2 = true →
       ∃ l, r.var.lookup p.1 = some l ∧
         l.drop adata.var.index.length =
           List.replicate ext_df.colNames.length (CellVal.b false)) := by
  have hg : adata.n_obs = ext_df.nrows := by
    by_contra hne
    unfold concat_matrices at hok
    rw [if_neg hne] at hok
    exact Except.noConfusion hok
  rw [concat_matrices_ok _ _ _ _ _ hg] at hok
  injection hok with hok'
  subst hok'
  have hvar : (concat_body adata ext_df obs fn ofn).var
      = concatVar adata.var ext_df.colNames obs fn ofn := by
    rw [concat_body_eq]
  have h1 : ∃ lp, (concat_body adata ext_df obs fn ofn).var.lookup ("is_" ++ fn)
      = some lp ∧
      lp.length = adata.var.index.length + ext_df.colNames.length ∧
      lp.all CellVal.isBool = true := by
    rw [hvar, lookup_concatVar, lookup_pdConcatRows, lookup_assign_self,
      lookup_extFrame]
    by_cases hpn : ("is_" ++ fn : String) = "is_" ++ ofn.getD obs
    · rw [if_pos hpn]
      simp only [Option.getD_some, Option.map_some', if_true]
      rw [if_pos hpn]
      by_cases hb : ("is_" ++ fn : String) ∈
          (adata.var.cols.filter (fun p => isBoolCol p.2)).map (fun p => p.1)
      · rw [if_pos hb]
        try simp only [mapFill_idem]
        exact ⟨_, rfl, flagCol_single _ _ _ _ (Or.inr rfl) (Or.inr rfl)⟩
      · rw [if_neg hb]
        try simp only [mapFill_idem]
        exact ⟨_, rfl, flagCol_single _ _ _ _ (Or.inr rfl) (Or.inr rfl)⟩
    · rw [if_neg hpn]
      simp only [Option.getD_none, Option.map_some', index_assign, if_true]
      rw [if_neg hpn]
      by_cases hb : ("is_" ++ fn : String) ∈
          (adata.var.cols.filter (fun p => isBoolCol p.2)).map (fun p => p.1)
      · rw [if_pos hb]
        try simp only [mapFill_idem]
        exact ⟨_, rfl, flagCol_single _ _ _ _ (Or.inr rfl) (Or.inl rfl)⟩
      · rw [if_neg hb]
        try simp only [mapFill_idem]
        exact ⟨_, rfl, flagCol_single _ _ _ _ (Or.inr rfl) (Or.inl rfl)⟩
  have h2 : ∃ ln, (concat_body adata ext_df obs fn ofn).var.lookup
      ("is_" ++ ofn.getD obs) = some ln ∧
      ln.length = adata.var.index.length + ext_df.colNames.length ∧
      ln.all CellVal.isBool = true := by
    by_cases hpn : ("is_" ++ fn : String) = "is_" ++ ofn.getD obs
    · rw [← hpn]
      exact h1
    · have hnp : ("is_" ++ ofn.getD obs : String) ≠ "is_" ++ fn :=
        fun h => hpn h.symm
      rw [hvar, lookup_concatVar, lookup_pdConcatRows,
        lookup_assign_ne _ _ _ _ hnp, hnew, lookup_extFrame, if_pos rfl]
      simp only [Option.map_some', index_assign, if_true]
      rw [if_neg hnp,
        if_neg (not_mem_boolNames_of_lookup_none adata.var _ hnew)]
      try simp only [mapFill_idem]
      exact ⟨_, rfl, flagCol_single _ _ _ _ (Or.inl rfl) (Or.inr rfl)⟩
  refine ⟨h1, h2, ?_⟩
  · -- pre-existing boolean columns are refilled with false on appended rows
    intro p hp hpb
    have hcnew : p.1 ≠ "is_" ++ ofn.getD obs := fun hne =>
      (lookup_eq_none_iff adata.var _).mp hnew p hp hne
    have hbmem : p.1 ∈ (adata.var.cols.filter (fun q => isBoolCol q.2)).map
        (fun q => q.1) :=
      List.mem_map.mpr ⟨p, List.mem_filter.mpr ⟨hp, hpb⟩, rfl⟩
    by_cases hcp : p.1 = "is_" ++ fn
    · rw [hcp] at hcnew hbmem
      rw [hvar, lookup_concatVar, hcp, lookup_pdConcatRows, lookup_assign_self,
        lookup_extFrame, if_neg hcnew]
      simp only [Option.getD_none, Option.map_some', index_assign, if_true]
      rw [if_neg hcnew, if_pos hbmem]
      try simp only [mapFill_idem]
      refine ⟨_, rfl, ?_⟩
      exact drop_mapFill_append _ _ _ _ (List.length_replicate _ _)
    · have hsome : ∃ l', adata.var.lookup p.1 = some l' := by
        cases hl : adata.var.lookup p.1 with
        | some l' => exact ⟨l', rfl⟩
        | none => exact absurd rfl ((lookup_eq_none_iff _ _).mp hl p hp)
      obtain ⟨l', hl'⟩ := hsome
      rw [hvar, lookup_concatVar, lookup_pdConcatRows,
        lookup_assign_ne _ _ _ _ hcp, hl', lookup_extFrame, if_neg hcnew]
      simp only [Option.getD_none, Option.map_some', index_assign]
      rw [if_neg hcp, if_neg hcnew, if_pos hbmem]
      refine ⟨_, rfl, ?_⟩
      exact drop_mapFill_append l' _ _ _ (lookup_length_of_wf _ _ _ hwf hl')

/-- A concrete one-hot annotation table for the C2 witness (the encoding
of `celltype = [A,B,A]`). -/
def extC2w : NumDF := ⟨["0", "1", "2"], ["A", "B"], [[1, 0], [0, 1], [1, 0]]⟩

/-- Witness for the amended C2 on the scenario dataset. -/
theorem claim_C2_amended_witness :
    (∃ lp, (concat_body adC1 extC2w "celltype" "gene" none).var.lookup "is_gene"
        = some lp ∧
       lp.length = adC1.var.index.length + extC2w.colNames.length ∧
       lp.all CellVal.isBool = true) ∧
    (∃ ln, (concat_body adC1 extC2w "celltype" "gene" none).var.lookup "is_celltype"
        = some ln ∧
       ln.length = adC1.var.index.length + extC2w.colNames.length ∧
       ln.all CellVal.isBool = true) ∧
    (∀ p ∈ adC1.var.cols, isBoolCol p.2 = true →
       ∃ l, (concat_body adC1 extC2w "celltype" "gene" none).var.lookup p.1
           = some l ∧
         l.drop adC1.var.index.length =
           List.replicate extC2w.colNames.length (CellVal.b false)) :=
  claim_C2_amended adC1 extC2w "celltype" "gene" none
    (concat_body adC1 extC2w "celltype" "gene" none)
    (by decide) (by decide) rfl

/-- A dataset with a non-`celltype` obsm key for the C10 witness. -/
def adC10 : AnnData :=
  { X := ⟨MatFmt.csc, [[1], [2]]⟩,
    obs := ⟨["0", "1"], []⟩,
    var := ⟨["g1"], []⟩,
    obsm := [("protein", ⟨["0", "1"], ["P1"], [[5], [6]]⟩)],
    uns := [] }

/-- Witness for C10: the obsm key is `protein`, yet the appended feature
is flagged in `is_celltype`. -/
theorem claim_C10_witness :
    ∃ r, concat_matrix_from_obsm adC10 "protein" "gene" none = .ok r ∧
      ∃ l, r.var.lookup "is_celltype" = some l ∧
        l.length = adC10.var.index.length +
          (⟨["0", "1"], ["P1"], [[5], [6]]⟩ : NumDF).colNames.length ∧
        l.drop adC10.var.index.length =
          List.replicate (⟨["0", "1"], ["P1"], [[5], [6]]⟩ : NumDF).colNames.length
            (CellVal.b true) :=
  claim_C10 adC10 "protein" ⟨["0", "1"], ["P1"], [[5], [6]]⟩
    (by decide) (by decide) (by decide)

theorem maskFilter_map {α β : Type} (xs : List α) (ys : List β) (q : β → Bool) :
    maskFilter xs (ys.map q) =
      ((xs.zip ys).filter (fun p => q p.2)).map (fun p => p.1) := by
  induction xs generalizing ys with
  | nil => rfl
  | cons x xs ih =>
    cases ys with
    | nil => rfl
    | cons y ys =>
      by_cases hq : q y = true
      · simp [maskFilter, List.filter_cons, hq] at ih ⊢
        exact ih ys
      · simp [maskFilter, List.filter_cons, hq] at ih ⊢
        exact ih ys

/-- The sample filter only looks at elements 0 and 1 of the sample
sequence, its emptiness and whether its length is below 2. -/
theorem c2l_sample_filter_congr (c2l : C2LFile) (s1 s2 : List String)
    (h0 : s1.getD 0 "" = s2.getD 0 "") (h1 : s1.getD 1 "" = s2.getD 1 "")
    (he : s1.isEmpty = s2.isEmpty)
    (hl : s1.length < 2 ↔ s2.length < 2) :
    c2l_sample_filter c2l (some s1) = c2l_sample_filter c2l (some s2) := by
  have hll : (s1.length < 2) = (s2.length < 2) := propext hl
  simp only [c2l_sample_filter]
  rw [he, h0, h1]
  simp only [hll]

/-- C9: the companion-file sample filter treats its argument as an
indexable `(key, value)` pair — it keeps exactly the rows whose obs
column named `sample[0]` equals `sample[1]` — and consequently a plain
string passed as the sample behaves as the sequence of its one-character
substrings: the filter keys on the column named by the first character,
compared against the second character. -/
theorem claim_C9 (c2l : C2LFile) (smp : List String) (col : List CellVal)
    (t : String)
    (h2 : 2 ≤ smp.length)
    (hcol : c2l.obs.lookup (smp.getD 0 "") = some col)
    (ht : 2 ≤ t.length) :
    (∃ c2l2, c2l_sample_filter c2l (some smp) = .ok c2l2 ∧
       c2l2.obs.index =
         ((c2l.obs.index.zip col).filter
           (fun p => cellEqStr p.2 (smp.getD 1 ""))).map (fun p => p.1)) ∧
    c2l_sample_filter c2l (some (pyStrIndex t)) =
      c2l_sample_filter c2l (some [String.singleton (t.toList.getD 0 ' '),
                                   String.singleton (t.toList.getD 1 ' ')]) := by
  constructor
  · rcases hs : smp with _ | ⟨a, _ | ⟨b, rest⟩⟩
    · rw [hs] at h2; simp at h2
    · rw [hs] at h2; simp at h2
    · subst hs
      simp only [List.getD_cons_zero] at hcol
      simp only [c2l_sample_filter, List.isEmpty_cons, Bool.false_eq_true, if_false,
        List.getD_cons_zero, List.getD_cons_succ, hcol]
      rw [if_neg (by simp only [List.length_cons, Nat.not_lt]; omega)]
      refine ⟨_, rfl, ?_⟩
      exact maskFilter_map c2l.obs.index col (fun v => cellEqStr v b)
  · have htl : 2 ≤ t.toList.length := ht
    rcases hlist : t.toList with _ | ⟨c1, _ | ⟨c2, rest⟩⟩
    · rw [hlist] at htl; simp at htl
    · rw [hlist] at htl; simp at htl
    · have hdata : t.data = c1 :: c2 :: rest := hlist
      apply c2l_sample_filter_congr
      · simp [pyStrIndex, hlist, hdata]
      · simp [pyStrIndex, hlist, hdata]
      · simp [pyStrIndex, hlist, hdata]
      · simp [pyStrIndex, hlist, hdata, ht]

/-- Witness for C9: a two-row companion filtered by the pair
`("s","x")`, and the plain string `"sx"` behaving as that pair. -/
theorem claim_C9_witness :
    (∃ c2l2, c2l_sample_filter
        ⟨⟨["r0", "r1"], [("s", [.s "x", .s "y"])]⟩, []⟩ (some ["s", "x"]) =
        .ok c2l2 ∧
       c2l2.obs.index =
         (((⟨⟨["r0", "r1"], [("s", [.s "x", .s "y"])]⟩, []⟩ :
             C2LFile).obs.index.zip [CellVal.s "x", CellVal.s "y"]).filter
           (fun p => cellEqStr p.2 (["s", "x"].getD 1 ""))).map (fun p => p.1)) ∧
    c2l_sample_filter ⟨⟨["r0", "r1"], [("s", [.s "x", .s "y"])]⟩, []⟩
        (some (pyStrIndex "sx")) =
      c2l_sample_filter ⟨⟨["r0", "r1"], [("s", [.s "x", .s "y"])]⟩, []⟩
        (some [String.singleton ("sx".toList.getD 0 ' '),
               String.singleton ("sx".toList.getD 1 ' ')]) :=
  claim_C9 ⟨⟨["r0", "r1"], [("s", [.s "x", .s "y"])]⟩, []⟩ ["s", "x"]
    [CellVal.s "x", CellVal.s "y"] "sx" (by decide) (by decide) (by decide)
